import Mathlib

/-!
Verification of the `profit-from-protest` repository: a shallow embedding of
the CEI stock-analysis notebook (`notebooks/cei_stock_analysis.ipynb`) and of
the PDF/OCR extraction pipeline described by the extraction report.

Conventions of the embedding:
* A pandas cell that may be NaN/None is an `Option` value (`none` = missing).
* Python strings handled character-wise (strip, slicing) are `List Char`;
  strings only compared for equality (bin labels) are Lean `String`.
* Numeric scores and returns are rationals (`ℚ`): the notebook's arithmetic on
  them (floor-division, comparison, summation) is exact at the inputs used.
-/

/-! ### Definitions: the embedded notebook pipeline, the spec-modelled
extraction pipeline, and concrete sample data for witnesses -/

/-- Python `str.strip()` on a character list: drop whitespace from both ends. -/
def pyStrip (s : List Char) : List Char :=
  ((s.dropWhile Char.isWhitespace).reverse.dropWhile Char.isWhitespace).reverse

/-- Embedding of the notebook's `get_cusip6(cusip)`:
`None` when the input is NaN; otherwise strip the string form and return its
first 6 characters when it has at least 6, else `None`. -/
def get_cusip6 (cusip : Option (List Char)) : Option (List Char) :=
  match cusip with
  | none => none
  | some c =>
    let cusip_str := pyStrip c
    if cusip_str.length ≥ 6 then some (cusip_str.take 6) else none

/-- Embedding of the notebook's `create_score_bin(score)`:
`None` on NaN; otherwise the label `f"{bin_start}-{bin_end}"` with
`bin_start = int(score // 10) * 10` and `bin_end = min(bin_start + 9, 100)`. -/
def create_score_bin (score : Option ℚ) : Option String :=
  match score with
  | none => none
  | some s =>
    let bin_start : ℤ := ⌊s / 10⌋ * 10
    let bin_end : ℤ := min (bin_start + 9) 100
    some (toString bin_start ++ "-" ++ toString bin_end)

/-- A pandas `Timestamp` as far as the notebook uses it: `.dt.year` reads the
calendar-year component, so a date is its calendar components. -/
structure PyDate where
  year : ℤ
  month : ℤ
  day : ℤ
deriving DecidableEq

/-- A row of `stock_df` (`stock_prices_event_window.csv`) with the columns the
notebook touches; nullable CSV cells are `Option`. -/
structure StockRow where
  cusip6 : Option (List Char)
  date : PyDate
  cei_release_date : PyDate
  days_from_release : ℤ
  RET : Option ℚ
deriving DecidableEq

/-- A row of the raw `cei_df` (`cei_with_dates.csv`) with the columns the
notebook touches. -/
structure CeiRawRow where
  cusip : Option (List Char)
  year : ℤ
  cei_score : Option ℚ
  employer : List Char
deriving DecidableEq

/-- A row of the prepared `cei_df` after the notebook adds the `cusip6` and
`score_bin` columns. -/
structure CeiRow where
  cusip6 : Option (List Char)
  year : ℤ
  cei_score : Option ℚ
  score_bin : Option String
  employer : List Char
deriving DecidableEq

/-- `cei_df['cusip6'] = cei_df['cusip'].apply(get_cusip6)`: the row with its
derived `cusip6` column (and a not-yet-assigned `score_bin` column). -/
def withCusip6 (r : CeiRawRow) : CeiRow :=
  { cusip6 := get_cusip6 r.cusip, year := r.year, cei_score := r.cei_score,
    score_bin := none, employer := r.employer }

/-- The notebook's preparation of `cei_df`:
`cusip6` column added, `dropna(subset=['cusip6', 'cei_score'])`, then
`score_bin = cei_df['cei_score'].apply(create_score_bin)`. -/
def prepareCei (rows : List CeiRawRow) : List CeiRow :=
  ((rows.map withCusip6).filter
      (fun r => r.cusip6.isSome && r.cei_score.isSome)).map
    (fun r => { r with score_bin := create_score_bin r.cei_score })

/-- A row of `merged_df`: all stock columns, the derived `cei_year`, and the
merged-in CEI columns (`cusip6` is the shared join key, equal on both sides). -/
structure MergedRow where
  cusip6 : Option (List Char)
  date : PyDate
  cei_release_date : PyDate
  days_from_release : ℤ
  RET : Option ℚ
  cei_year : ℤ
  year : ℤ
  cei_score : Option ℚ
  score_bin : Option String
  employer : List Char
deriving DecidableEq

/-- The merged row built from one stock row and one CEI row
(`cei_year = cei_release_date.dt.year` as assigned before the merge). -/
def mkMergedRow (s : StockRow) (c : CeiRow) : MergedRow :=
  { cusip6 := s.cusip6, date := s.date, cei_release_date := s.cei_release_date,
    days_from_release := s.days_from_release, RET := s.RET,
    cei_year := s.cei_release_date.year, year := c.year,
    cei_score := c.cei_score, score_bin := c.score_bin, employer := c.employer }

/-- The notebook's inner merge
`stock_df.merge(cei_df[...], left_on=['cusip6','cei_year'],
right_on=['cusip6','year'], how='inner')`: one output row per key-matching
pair of input rows. -/
def mergeStockCei (stock : List StockRow) (cei : List CeiRow) : List MergedRow :=
  stock.flatMap (fun s =>
    (cei.filter (fun c =>
        decide (s.cusip6 = c.cusip6 ∧ s.cei_release_date.year = c.year))).map
      (mkMergedRow s))

/-- `merged_df = merged_df.dropna(subset=['RET'])`. -/
def dropMissingRET (df : List MergedRow) : List MergedRow :=
  df.filter (fun r => r.RET.isSome)

/-- `merged_df` as consumed by the analysis: merge then drop missing returns. -/
def mergedClean (stock : List StockRow) (ceiRaw : List CeiRawRow) : List MergedRow :=
  dropMissingRET (mergeStockCei stock (prepareCei ceiRaw))

/-- `event_window = merged_df[merged_df['days_from_release'].between(-3, 3)]`
(pandas `between` is inclusive on both ends). -/
def eventWindow (df : List MergedRow) : List MergedRow :=
  df.filter (fun r => decide (-3 ≤ r.days_from_release ∧ r.days_from_release ≤ 3))

/-- The grouping key of
`event_window.groupby(['cusip6', 'year', 'score_bin'])`. -/
def ferKey (r : MergedRow) : Option (List Char) × ℤ × Option String :=
  (r.cusip6, r.year, r.score_bin)

/-- A row of `firm_event_returns` after the rename to
`['cusip6', 'year', 'score_bin', 'event_return']`. -/
structure FerRow where
  cusip6 : Option (List Char)
  year : ℤ
  score_bin : Option String
  event_return : ℚ
deriving DecidableEq

/-- The `RET` value a pandas sum sees: a missing cell contributes 0
(`skipna` default; after `dropna(subset=['RET'])` no cell is missing). -/
def retVal (r : MergedRow) : ℚ := r.RET.getD 0

/-- `firm_event_returns = event_window.groupby(['cusip6','year','score_bin'])
['RET'].sum().reset_index()`: one row per distinct key of the event window,
holding the sum of `RET` over that key's rows. -/
def firm_event_returns (df : List MergedRow) : List FerRow :=
  let ew := eventWindow df
  ((ew.map ferKey).dedup).map (fun k =>
    { cusip6 := k.1, year := k.2.1, score_bin := k.2.2,
      event_return := ((ew.filter (fun r => decide (ferKey r = k))).map retVal).sum })

/-- Pandas `Series.isin(values)` on a nullable string column: a missing cell
is in no list; a present cell is tested for membership. -/
def isin (values : List String) (cell : Option String) : Bool :=
  match cell with
  | some b => values.contains b
  | none => false

/-- `firm_event_returns[firm_event_returns['score_bin'].isin(['90-100'])]`. -/
def highRows (fer : List FerRow) : List FerRow :=
  fer.filter (fun r => isin ["90-100"] r.score_bin)

/-- `firm_event_returns[firm_event_returns['score_bin'].isin(['0-9','10-19'])]`. -/
def lowRows (fer : List FerRow) : List FerRow :=
  fer.filter (fun r => isin ["0-9", "10-19"] r.score_bin)

/-- The `high_scores` series: the `event_return` column of the high rows. -/
def highVals (fer : List FerRow) : List ℚ :=
  (highRows fer).map (fun r => r.event_return)

/-- The `low_scores` series: the `event_return` column of the low rows. -/
def lowVals (fer : List FerRow) : List ℚ :=
  (lowRows fer).map (fun r => r.event_return)

/-- The guarded significance test:
`if len(high_scores) > 0 and len(low_scores) > 0:` run
`stats.ttest_ind(high_scores, low_scores)` on the two samples, `else` report
insufficient data (`none`: no t-statistic or p-value is computed). The value
carried on success is the pair of samples handed to `ttest_ind`. -/
def significanceTest (fer : List FerRow) : Option (List ℚ × List ℚ) :=
  if 0 < (highVals fer).length ∧ 0 < (lowVals fer).length then
    some (highVals fer, lowVals fer)
  else none

/-- Modelled from the spec: the extraction sources (`utils.py`,
`ocr_cei_extractor.py`, `cei_improved_extractor.py`) are absent from the
repository snapshot; the extraction report describes an OCR line as a possible
company/score candidate, possibly carrying OCR artifacts. A line of OCR text
is represented by what the downstream parsers can recover from it: a company
name, a score when one is legible, and whether the line is an OCR artifact. -/
structure OcrLine where
  company : List Char
  score : Option ℚ
  artifact : Bool
deriving DecidableEq

/-- Modelled from the spec: a page of a CEI PDF, as the text its rendering
carries. The page-level layout heuristics are not in the snapshot. -/
structure PdfPage where
  lines : List OcrLine
deriving DecidableEq

/-- Modelled from the spec: a CEI annual-report PDF. The report describes
documents by their report year and whether the score table is the clean
company-list (appendix) format. -/
structure PdfDoc where
  year : ℤ
  isAppendix : Bool
  pages : List PdfPage
deriving DecidableEq

/-- Modelled from the spec: a high-resolution page image produced by
`pdf2image`; rendering preserves the page content that OCR later reads. -/
structure PageImage where
  page : PdfPage
deriving DecidableEq

/-- Modelled from the spec: the four parsing strategies of the OCR pipeline's
pattern-recognition step. -/
inductive ParsingStrategy where
  | cleanCompanyList
  | modern
  | midEra
  | legacy
deriving DecidableEq

/-- Modelled from the spec: strategy selection. The report assigns the clean
company-list strategy to appendix-format documents and the remaining three by
the document's year: modern for 2015+, mid-era for 2010-2014, legacy for
pre-2010. -/
def chooseStrategy (d : PdfDoc) : ParsingStrategy :=
  if d.isAppendix then .cleanCompanyList
  else if 2015 ≤ d.year then .modern
  else if 2010 ≤ d.year then .midEra
  else .legacy

/-- Modelled from the spec: OCR pipeline step 1, `pdf2image` conversion of
PDF pages to high-resolution images. -/
def pdfToImages (d : PdfDoc) : List PageImage :=
  d.pages.map (fun p => { page := p })

/-- Modelled from the spec: OCR pipeline step 2, Tesseract text extraction
from the page images, concatenated in page order. -/
def ocrExtractText (imgs : List PageImage) : List OcrLine :=
  imgs.flatMap (fun i => i.page.lines)

/-- Modelled from the spec: a candidate record after pattern recognition:
a company name and a numeric score, still possibly carrying artifacts. -/
structure Candidate where
  company : List Char
  score : ℚ
  artifact : Bool
deriving DecidableEq

/-- Modelled from the spec: OCR pipeline step 3, pattern recognition. The
per-era regular-expression heuristics are not in the snapshot; a line yields a
candidate exactly when a score is legible on it. The chosen strategy is the
format the heuristics assume. -/
def patternParse (strat : ParsingStrategy) (lines : List OcrLine) : List Candidate :=
  let _ := strat
  lines.filterMap (fun l =>
    l.score.map (fun q => { company := l.company, score := q, artifact := l.artifact }))

/-- Modelled from the spec: OCR pipeline step 4, data cleaning: remove OCR
artifacts and entries without a usable company name. -/
def cleanData (cs : List Candidate) : List Candidate :=
  cs.filter (fun c => !c.artifact && !c.company.isEmpty)

/-- Modelled from the spec: the score-range check of the validation step
(scores must lie in 0-100). -/
def scoreInRange (q : ℚ) : Bool :=
  decide (0 ≤ q ∧ q ≤ 100)

/-- Modelled from the spec: OCR pipeline step 5, score validation: keep only
candidates whose score lies within the valid range. -/
def validateScores (cs : List Candidate) : List Candidate :=
  cs.filter (fun c => scoreInRange c.score)

/-- Modelled from the spec: OCR processing of one document: the five pipeline
steps in their fixed order - images, OCR text, pattern recognition with the
chosen strategy, cleaning, then score validation last. -/
def processDoc (d : PdfDoc) : List Candidate :=
  validateScores (cleanData
    (patternParse (chooseStrategy d) (ocrExtractText (pdfToImages d))))

/-- Modelled from the spec: one record of a per-year output CSV, with the
schema `Company`, `CEI_Score`, `Year`. -/
structure CeiRecord where
  Company : List Char
  CEI_Score : ℚ
  Year : ℤ
deriving DecidableEq

/-- Modelled from the spec: the per-year normalized dataset for one document:
every validated candidate, stamped with the report year. -/
def perYearRecords (d : PdfDoc) : List CeiRecord :=
  (processDoc d).map (fun c => { Company := c.company, CEI_Score := c.score, Year := d.year })

/-- Modelled from the spec: best-effort extraction for one year: no dataset
when the year's PDF is absent, or when the document's format defeats every
extraction strategy (no record can be extracted from it). -/
def tryExtractYear (pdf : Option PdfDoc) : Option (List CeiRecord) :=
  match pdf with
  | none => none
  | some d => if (perYearRecords d).isEmpty then none else some (perYearRecords d)

/-- Modelled from the spec: one log line per processed year, recording
success or failure. -/
inductive YearLog where
  | ok (year : ℤ)
  | failed (year : ℤ)
deriving DecidableEq

/-- Modelled from the spec: processing of the whole year range: every year is
attempted; a failed year is skipped (it contributes no dataset) and logged,
and the remaining years are still processed; a successful year contributes
its dataset. -/
def processAllYears (inputs : List (ℤ × Option PdfDoc)) :
    List (ℤ × List CeiRecord) × List YearLog :=
  (inputs.filterMap (fun p => (tryExtractYear p.2).map (fun recs => (p.1, recs))),
   inputs.map (fun p =>
     match tryExtractYear p.2 with
     | some _ => .ok p.1
     | none => .failed p.1))

/-- A concrete `merged_df` row used by witnesses. -/
def sampleMergedRow : MergedRow :=
  { cusip6 := some "037833".data, date := ⟨2019, 3, 30⟩,
    cei_release_date := ⟨2019, 3, 28⟩, days_from_release := 2,
    RET := some (1 / 100), cei_year := 2019, year := 2019,
    cei_score := some 95, score_bin := some "90-99", employer := "Apple".data }

/-- The `firm_event_returns` row the notebook computes from
`[sampleMergedRow]`. -/
def sampleFerRow : FerRow :=
  { cusip6 := some "037833".data, year := 2019, score_bin := some "90-99",
    event_return := 1 / 100 }

/-- The invariant claimed of every merged row the analysis consumes:
`cusip6` present and exactly 6 characters, `cei_score`, `score_bin` and `RET`
all present. -/
def rowInv (r : MergedRow) : Prop :=
  (∃ l, r.cusip6 = some l ∧ l.length = 6) ∧
    r.cei_score.isSome ∧ r.score_bin.isSome ∧ r.RET.isSome

/-- The concrete stock row feeding the sample pipeline. -/
def sampleStockRow : StockRow :=
  { cusip6 := some "037833".data, date := ⟨2019, 3, 30⟩,
    cei_release_date := ⟨2019, 3, 28⟩, days_from_release := 2,
    RET := some (1 / 100) }

/-- The concrete raw CEI row feeding the sample pipeline. -/
def sampleCeiRawRow : CeiRawRow :=
  { cusip := some " 0378331005 ".data, year := 2019, cei_score := some 95,
    employer := "Apple".data }

/-- A concrete high-bin `firm_event_returns` row for the C2 witness. -/
def sampleHighFer : FerRow :=
  { cusip6 := some "037833".data, year := 2019, score_bin := some "90-100",
    event_return := 2 }

/-- A concrete low-bin `firm_event_returns` row for the C2 witness. -/
def sampleLowFer : FerRow :=
  { cusip6 := some "123456".data, year := 2019, score_bin := some "0-9",
    event_return := 1 }

/-- A concrete legible OCR line for the extraction witnesses. -/
def sampleOcrLine : OcrLine :=
  { company := "HSBC".data, score := some 100, artifact := false }

/-- A concrete CEI report document for the extraction witnesses. -/
def samplePdfDoc : PdfDoc :=
  { year := 2019, isAppendix := false, pages := [{ lines := [sampleOcrLine] }] }

/-- The candidate the pipeline extracts from `samplePdfDoc`. -/
def sampleCandidate : Candidate :=
  { company := "HSBC".data, score := 100, artifact := false }

/-- The record the pipeline emits for `samplePdfDoc`. -/
def sampleCeiRecord : CeiRecord :=
  { Company := "HSBC".data, CEI_Score := 100, Year := 2019 }

/-- The concrete year range for the C8 witness: 2019 succeeds, 2021 has no
PDF. -/
def sampleYearInputs : List (ℤ × Option PdfDoc) :=
  [(2019, some samplePdfDoc), (2021, none)]

/-- A 2016 document in the clean company-list (appendix) format. -/
def appendixDoc2016 : PdfDoc :=
  { year := 2016, isAppendix := true, pages := [] }

/-- A 2016 document not in the appendix format. -/
def modernDoc2016 : PdfDoc :=
  { year := 2016, isAppendix := false, pages := [] }

/-! ### Theorems -/

theorem get_cusip6_length {x : Option (List Char)} {l : List Char}
    (h : get_cusip6 x = some l) : l.length = 6 := by
  cases x with
  | none => simp [get_cusip6] at h
  | some c =>
    simp only [get_cusip6] at h
    split_ifs at h with hlen
    cases h
    simp only [List.length_take]
    omega

theorem create_score_bin_isSome (x : Option ℚ) :
    (create_score_bin x).isSome = x.isSome := by
  cases x <;> simp [create_score_bin]

theorem mem_mergeStockCei {stock : List StockRow} {cei : List CeiRow} {m : MergedRow} :
    m ∈ mergeStockCei stock cei ↔
      ∃ s ∈ stock, ∃ c ∈ cei,
        s.cusip6 = c.cusip6 ∧ s.cei_release_date.year = c.year ∧ m = mkMergedRow s c := by
  simp only [mergeStockCei, List.mem_flatMap, List.mem_map, List.mem_filter,
    decide_eq_true_eq]
  constructor
  · rintro ⟨s, hs, c, ⟨hc, h1, h2⟩, rfl⟩
    exact ⟨s, hs, c, hc, h1, h2, rfl⟩
  · rintro ⟨s, hs, c, hc, h1, h2, rfl⟩
    exact ⟨s, hs, c, ⟨hc, h1, h2⟩, rfl⟩

theorem mem_prepareCei {rows : List CeiRawRow} {c : CeiRow} (hc : c ∈ prepareCei rows) :
    (∃ l, c.cusip6 = some l ∧ l.length = 6) ∧
      c.cei_score.isSome ∧ c.score_bin.isSome := by
  simp only [prepareCei, List.mem_map, List.mem_filter, Bool.and_eq_true] at hc
  obtain ⟨c0, ⟨⟨r0, hr0, rfl⟩, h6, hsc⟩, rfl⟩ := hc
  refine ⟨?_, hsc, ?_⟩
  · obtain ⟨l, hl⟩ := Option.isSome_iff_exists.mp h6
    exact ⟨l, hl, get_cusip6_length hl⟩
  · simpa [create_score_bin_isSome] using hsc

/-- Claim C6: `get_cusip6` returns `None` exactly when its argument is missing
or when its string form, stripped of surrounding whitespace, has fewer than 6
characters; in every other case it returns the first 6 characters of the
stripped string, whatever those characters are. -/
theorem get_cusip6_characterisation :
    (∀ x : Option (List Char),
      (get_cusip6 x = none ↔ x = none ∨ ∃ s, x = some s ∧ (pyStrip s).length < 6)) ∧
    (∀ s : List Char, 6 ≤ (pyStrip s).length →
      get_cusip6 (some s) = some ((pyStrip s).take 6)) := by
  constructor
  · intro x
    cases x with
    | none => simp [get_cusip6]
    | some s =>
      simp only [get_cusip6, Option.some.injEq, reduceCtorEq, false_or]
      constructor
      · intro h
        split_ifs at h with hlen
        exact ⟨s, rfl, by omega⟩
      · rintro ⟨s', hs', hlt⟩
        cases hs'
        rw [if_neg (by omega)]
  · intro s h
    simp [get_cusip6, h]

/-- Closed witness for `get_cusip6_characterisation` at a concrete non-digit
input. -/
theorem get_cusip6_characterisation_witness :
    6 ≤ (pyStrip " AB12!x7 ".data).length ∧
      get_cusip6 (some " AB12!x7 ".data) = some ((pyStrip " AB12!x7 ".data).take 6) :=
  ⟨by decide, get_cusip6_characterisation.2 " AB12!x7 ".data (by decide)⟩

/-- Claim C1 (evidence of the code bug): every non-null score in the band
`[90, 100)` is labelled `"90-99"`, never the `"90-100"` that the function's
own docstring (`0-9, 10-19, ..., 90-100`) and the notebook's downstream
high-score filter `isin(['90-100'])` expect. -/
theorem create_score_bin_ninety_band (s : ℚ) (h1 : 90 ≤ s) (h2 : s < 100) :
    create_score_bin (some s) = some "90-99" ∧
      create_score_bin (some s) ≠ some "90-100" := by
  have h : ⌊s / 10⌋ = 9 := by
    rw [Int.floor_eq_iff]
    constructor
    · push_cast
      linarith
    · push_cast
      linarith
  constructor
  · simp only [create_score_bin, h]
    decide
  · simp only [create_score_bin, h]
    decide

/-- Closed witness for `create_score_bin_ninety_band` at the failing input 95. -/
theorem create_score_bin_ninety_band_witness :
    (90 : ℚ) ≤ 95 ∧ (95 : ℚ) < 100 ∧
      create_score_bin (some 95) = some "90-99" ∧
      create_score_bin (some 95) ≠ some "90-100" :=
  ⟨by norm_num, by norm_num, create_score_bin_ninety_band 95 (by norm_num) (by norm_num)⟩

/-- Claim C3: `merged_df` is an inner equi-join: a merged row appears for
exactly those pairs of a stock record and a prepared CEI record whose `cusip6`
values are equal and whose years match, the stock side keyed by the calendar
year of its `cei_release_date` and the CEI side by its `year` column;
unmatched records on either side contribute no row. -/
theorem mergedDf_inner_join (stock : List StockRow) (ceiRaw : List CeiRawRow)
    (m : MergedRow) :
    m ∈ mergeStockCei stock (prepareCei ceiRaw) ↔
      ∃ s ∈ stock, ∃ c ∈ prepareCei ceiRaw,
        s.cusip6 = c.cusip6 ∧ s.cei_release_date.year = c.year ∧
          m = mkMergedRow s c :=
  mem_mergeStockCei

/-- Claim C4: each `firm_event_returns` row's `event_return` is the sum of
`RET` over exactly those merged rows with the same firm, year and bin whose
`days_from_release` lies in `[-3, 3]`; rows outside the window contribute
nothing. -/
theorem firm_event_returns_window_sum (df : List MergedRow) (e : FerRow)
    (he : e ∈ firm_event_returns df) :
    e.event_return =
      ((df.filter (fun r => decide (r.cusip6 = e.cusip6 ∧ r.year = e.year ∧
          r.score_bin = e.score_bin ∧
          -3 ≤ r.days_from_release ∧ r.days_from_release ≤ 3))).map retVal).sum := by
  simp only [firm_event_returns, List.mem_map] at he
  obtain ⟨k, hk, rfl⟩ := he
  have hpred : ∀ r : MergedRow,
      (decide (ferKey r = k) &&
        decide (-3 ≤ r.days_from_release ∧ r.days_from_release ≤ 3)) =
      decide (r.cusip6 = k.1 ∧ r.year = k.2.1 ∧ r.score_bin = k.2.2 ∧
        -3 ≤ r.days_from_release ∧ r.days_from_release ≤ 3) := by
    intro r
    rw [← Bool.decide_and, decide_eq_decide]
    simp only [ferKey, Prod.ext_iff]
    tauto
  simp only [eventWindow, List.filter_filter, hpred]

/-- Concrete evaluation of `create_score_bin` at 95, for witnesses. -/
theorem create_score_bin_at_95 : create_score_bin (some 95) = some "90-99" := by
  have h : ⌊(95 : ℚ) / 10⌋ = 9 := by rw [Int.floor_eq_iff]; norm_num
  simp only [create_score_bin, h]
  decide

/-- Evaluation of `firm_event_returns` on the one-row sample frame. -/
theorem sample_fer_eval : firm_event_returns [sampleMergedRow] = [sampleFerRow] := by
  norm_num [firm_event_returns, eventWindow, ferKey, retVal, sampleMergedRow,
    sampleFerRow, List.dedup_cons_of_not_mem]

/-- Closed witness for `firm_event_returns_window_sum` on a one-row frame. -/
theorem firm_event_returns_window_sum_witness :
    sampleFerRow ∈ firm_event_returns [sampleMergedRow] ∧
      sampleFerRow.event_return =
        (([sampleMergedRow].filter (fun r =>
            decide (r.cusip6 = sampleFerRow.cusip6 ∧ r.year = sampleFerRow.year ∧
              r.score_bin = sampleFerRow.score_bin ∧
              -3 ≤ r.days_from_release ∧ r.days_from_release ≤ 3))).map retVal).sum :=
  have hm : sampleFerRow ∈ firm_event_returns [sampleMergedRow] := by
    rw [sample_fer_eval]
    exact List.mem_singleton.mpr rfl
  ⟨hm, firm_event_returns_window_sum [sampleMergedRow] sampleFerRow hm⟩

/-- Claim C5: after preparation (cusip6 derivation, the two `dropna` calls and
bin assignment) every row of the merged data satisfies the invariant, and the
downstream filtering (`event_window`) and grouping (`firm_event_returns`)
preserve it: no null `cusip6`, `cei_score`, `score_bin` or `RET` reappears. -/
theorem mergedClean_invariant (stock : List StockRow) (ceiRaw : List CeiRawRow) :
    (∀ r ∈ mergedClean stock ceiRaw, rowInv r) ∧
    (∀ r ∈ eventWindow (mergedClean stock ceiRaw), rowInv r) ∧
    (∀ e ∈ firm_event_returns (mergedClean stock ceiRaw),
      (∃ l, e.cusip6 = some l ∧ l.length = 6) ∧ e.score_bin.isSome) := by
  have hbase : ∀ r ∈ mergedClean stock ceiRaw, rowInv r := by
    intro r hr
    simp only [mergedClean, dropMissingRET, List.mem_filter] at hr
    obtain ⟨hmem, hret⟩ := hr
    obtain ⟨s, hs, c, hc, hcu, hyr, rfl⟩ := mem_mergeStockCei.mp hmem
    obtain ⟨⟨l, hl, hl6⟩, hsc, hbin⟩ := mem_prepareCei hc
    refine ⟨⟨l, ?_, hl6⟩, hsc, hbin, by simpa using hret⟩
    simpa [mkMergedRow, hcu] using hl
  refine ⟨hbase, ?_, ?_⟩
  · intro r hr
    exact hbase r (List.mem_of_mem_filter hr)
  · intro e he
    simp only [firm_event_returns, List.mem_map] at he
    obtain ⟨k, hk, rfl⟩ := he
    obtain ⟨r, hr, hkey⟩ := List.mem_map.mp (List.mem_dedup.mp hk)
    have hinv := hbase r (List.mem_of_mem_filter hr)
    cases hkey
    exact ⟨hinv.1, hinv.2.2.1⟩

/-- Concrete evaluation of `get_cusip6` at the sample cusip. -/
theorem get_cusip6_at_sample :
    get_cusip6 (some " 0378331005 ".data) = some "037833".data := by rfl

/-- Evaluation of the whole data preparation on the sample rows. -/
theorem sample_mergedClean_eval :
    mergedClean [sampleStockRow] [sampleCeiRawRow] = [sampleMergedRow] := by
  have hprep : prepareCei [sampleCeiRawRow] =
      [{ cusip6 := some "037833".data, year := 2019, cei_score := some 95,
         score_bin := create_score_bin (some 95), employer := "Apple".data }] := by rfl
  rw [create_score_bin_at_95] at hprep
  show dropMissingRET (mergeStockCei [sampleStockRow] (prepareCei [sampleCeiRawRow])) =
    [sampleMergedRow]
  rw [hprep]
  rfl

/-- Closed witness for `mergedClean_invariant` on the sample pipeline. -/
theorem mergedClean_invariant_witness :
    sampleMergedRow ∈ mergedClean [sampleStockRow] [sampleCeiRawRow] ∧
      rowInv sampleMergedRow ∧
      sampleFerRow ∈ firm_event_returns (mergedClean [sampleStockRow] [sampleCeiRawRow]) ∧
      (∃ l, sampleFerRow.cusip6 = some l ∧ l.length = 6) ∧
      sampleFerRow.score_bin.isSome :=
  have h1 : sampleMergedRow ∈ mergedClean [sampleStockRow] [sampleCeiRawRow] := by
    rw [sample_mergedClean_eval]
    exact List.mem_singleton.mpr rfl
  have h3 : sampleFerRow ∈ firm_event_returns (mergedClean [sampleStockRow] [sampleCeiRawRow]) := by
    rw [sample_mergedClean_eval, sample_fer_eval]
    exact List.mem_singleton.mpr rfl
  ⟨h1, (mergedClean_invariant [sampleStockRow] [sampleCeiRawRow]).1 sampleMergedRow h1,
    h3, (mergedClean_invariant [sampleStockRow] [sampleCeiRawRow]).2.2 sampleFerRow h3⟩

/-- Claim C2: the significance test takes as its high-score group exactly the
`firm_event_returns` rows whose `score_bin` equals `"90-100"` and as its
low-score group exactly those whose `score_bin` is `"0-9"` or `"10-19"`; the
two-sample t-test is run if and only if both groups are non-empty, on exactly
those two samples, and otherwise no t-statistic or p-value is computed. -/
theorem significanceTest_groups (fer : List FerRow) :
    (∀ r ∈ fer,
      (r ∈ highRows fer ↔ r.score_bin = some "90-100") ∧
      (r ∈ lowRows fer ↔ (r.score_bin = some "0-9" ∨ r.score_bin = some "10-19"))) ∧
    ((significanceTest fer).isSome ↔ highRows fer ≠ [] ∧ lowRows fer ≠ []) ∧
    (∀ hi lo, significanceTest fer = some (hi, lo) →
      hi = highVals fer ∧ lo = lowVals fer) := by
  refine ⟨?_, ?_, ?_⟩
  · intro r hr
    constructor
    · cases hbin : r.score_bin with
      | none => simp [highRows, List.mem_filter, isin, hbin, hr]
      | some b => simp [highRows, List.mem_filter, isin, hbin, hr]
    · cases hbin : r.score_bin with
      | none => simp [lowRows, List.mem_filter, isin, hbin, hr]
      | some b => simp [lowRows, List.mem_filter, isin, hbin, hr]
  · constructor
    · intro hs
      rw [significanceTest] at hs
      split_ifs at hs with h
      · refine ⟨List.length_pos.mp ?_, List.length_pos.mp ?_⟩
        · simpa [highVals] using h.1
        · simpa [lowVals] using h.2
      · simp at hs
    · rintro ⟨hh, hl⟩
      have hc : 0 < (highVals fer).length ∧ 0 < (lowVals fer).length :=
        ⟨by simpa [highVals] using List.length_pos.mpr hh,
         by simpa [lowVals] using List.length_pos.mpr hl⟩
      simp only [significanceTest, if_pos hc, Option.isSome_some]
  · intro hi lo hsome
    rw [significanceTest] at hsome
    split_ifs at hsome
    cases hsome
    exact ⟨rfl, rfl⟩

/-- Closed witness for `significanceTest_groups` on a two-row frame. -/
theorem significanceTest_groups_witness :
    sampleHighFer ∈ [sampleHighFer, sampleLowFer] ∧
      (sampleHighFer ∈ highRows [sampleHighFer, sampleLowFer] ↔
        sampleHighFer.score_bin = some "90-100") ∧
      ((significanceTest [sampleHighFer, sampleLowFer]).isSome ↔
        highRows [sampleHighFer, sampleLowFer] ≠ [] ∧
          lowRows [sampleHighFer, sampleLowFer] ≠ []) :=
  ⟨List.mem_cons_self _ _,
    ((significanceTest_groups [sampleHighFer, sampleLowFer]).1 sampleHighFer
      (List.mem_cons_self _ _)).1,
    (significanceTest_groups [sampleHighFer, sampleLowFer]).2.1⟩

/-- Claim C7 (spec-modelled): every record of the per-year normalized output
carries a non-empty company name, a numeric CEI score within 0-100, and the
report year; the pipeline validates the score range before emitting. -/
theorem perYearRecords_validated (d : PdfDoc) (r : CeiRecord)
    (hr : r ∈ perYearRecords d) :
    0 ≤ r.CEI_Score ∧ r.CEI_Score ≤ 100 ∧ r.Company ≠ [] ∧ r.Year = d.year := by
  simp only [perYearRecords, List.mem_map] at hr
  obtain ⟨c, hc, rfl⟩ := hr
  simp only [processDoc, validateScores, List.mem_filter] at hc
  obtain ⟨hclean, hscore⟩ := hc
  simp only [scoreInRange, decide_eq_true_eq] at hscore
  simp only [cleanData, List.mem_filter, Bool.and_eq_true, Bool.not_eq_true'] at hclean
  refine ⟨hscore.1, hscore.2, ?_, rfl⟩
  simpa [List.isEmpty_iff] using hclean.2.2

/-- Closed witness for `perYearRecords_validated` on a concrete document. -/
theorem perYearRecords_validated_witness :
    sampleCeiRecord ∈ perYearRecords samplePdfDoc ∧
      0 ≤ sampleCeiRecord.CEI_Score ∧ sampleCeiRecord.CEI_Score ≤ 100 ∧
      sampleCeiRecord.Company ≠ [] ∧ sampleCeiRecord.Year = samplePdfDoc.year :=
  ⟨by decide, perYearRecords_validated samplePdfDoc sampleCeiRecord (by decide)⟩

/-- Claim C10 (spec-modelled): every candidate emitted by OCR processing has
passed score validation last: it lies in the image-OCR-parse-clean chain's
output (so it was already cleaned of artifacts and has a usable name when
validated) and its score is in range. -/
theorem processDoc_validation_last (d : PdfDoc) (c : Candidate)
    (hc : c ∈ processDoc d) :
    scoreInRange c.score = true ∧
      c ∈ cleanData (patternParse (chooseStrategy d) (ocrExtractText (pdfToImages d))) ∧
      c.artifact = false ∧ c.company ≠ [] := by
  simp only [processDoc, validateScores, List.mem_filter] at hc
  obtain ⟨hclean, hscore⟩ := hc
  refine ⟨hscore, hclean, ?_, ?_⟩
  · simp only [cleanData, List.mem_filter, Bool.and_eq_true, Bool.not_eq_true'] at hclean
    exact hclean.2.1
  · simp only [cleanData, List.mem_filter, Bool.and_eq_true, Bool.not_eq_true'] at hclean
    simpa [List.isEmpty_iff] using hclean.2.2

/-- Closed witness for `processDoc_validation_last` on a concrete document. -/
theorem processDoc_validation_last_witness :
    sampleCandidate ∈ processDoc samplePdfDoc ∧
      scoreInRange sampleCandidate.score = true ∧
      sampleCandidate ∈ cleanData (patternParse (chooseStrategy samplePdfDoc)
        (ocrExtractText (pdfToImages samplePdfDoc))) ∧
      sampleCandidate.artifact = false ∧ sampleCandidate.company ≠ [] :=
  ⟨by decide, processDoc_validation_last samplePdfDoc sampleCandidate (by decide)⟩

/-- Keys of the successful outputs are the keys of the successful inputs. -/
theorem processAllYears_fst_eq :
    ∀ inputs : List (ℤ × Option PdfDoc),
      (processAllYears inputs).1.map Prod.fst =
        (inputs.filter (fun p => (tryExtractYear p.2).isSome)).map Prod.fst
  | [] => rfl
  | p :: ps => by
    have ih := processAllYears_fst_eq ps
    cases h : tryExtractYear p.2 with
    | none =>
      simpa [processAllYears, List.filterMap_cons, List.filter_cons, h] using ih
    | some recs =>
      simpa [processAllYears, List.filterMap_cons, List.filter_cons, h] using ih

/-- Output membership characterisation for `processAllYears`. -/
theorem mem_processAllYears_fst {inputs : List (ℤ × Option PdfDoc)}
    {y : ℤ} {recs : List CeiRecord} :
    (y, recs) ∈ (processAllYears inputs).1 ↔
      ∃ p, (y, p) ∈ inputs ∧ tryExtractYear p = some recs := by
  simp only [processAllYears, List.mem_filterMap]
  constructor
  · rintro ⟨⟨y', p⟩, hmem, hmap⟩
    rw [Option.map_eq_some'] at hmap
    obtain ⟨r0, hr0, heq⟩ := hmap
    obtain ⟨rfl, rfl⟩ := Prod.mk.injEq .. |>.mp heq
    exact ⟨p, hmem, hr0⟩
  · rintro ⟨p, hmem, hex⟩
    exact ⟨(y, p), hmem, by simp [hex]⟩

/-- In a list of pairs with no duplicate first components, the first
component determines the second. -/
theorem snd_unique_of_nodup_fst {α β : Type} :
    ∀ {l : List (α × β)}, (l.map Prod.fst).Nodup →
      ∀ {a : α} {b₁ b₂ : β}, (a, b₁) ∈ l → (a, b₂) ∈ l → b₁ = b₂
  | [], _, _, _, _, h, _ => by cases h
  | x :: xs, hnd, a, b₁, b₂, h₁, h₂ => by
    simp only [List.map_cons, List.nodup_cons] at hnd
    rcases List.mem_cons.mp h₁ with h₁h | h₁t
    · rcases List.mem_cons.mp h₂ with h₂h | h₂t
      · exact ((Prod.mk.injEq ..).mp (h₁h.trans h₂h.symm)).2
      · cases h₁h
        apply absurd _ hnd.1
        simpa using List.mem_map_of_mem Prod.fst h₂t
    · rcases List.mem_cons.mp h₂ with h₂h | h₂t
      · cases h₂h
        apply absurd _ hnd.1
        simpa using List.mem_map_of_mem Prod.fst h₁t
      · exact snd_unique_of_nodup_fst hnd.2 h₁t h₂t

/-- Claim C8 (spec-modelled): extraction is best-effort per year. Over any
year range without duplicate years: a per-year dataset appears exactly for
the year-inputs whose extraction succeeds, at most once per year; every
successful year is still processed to completion and logged as ok even when
other years fail; a failed year (missing PDF, or a format defeating every
strategy) is logged as failed and contributes no dataset. -/
theorem processAllYears_best_effort (inputs : List (ℤ × Option PdfDoc))
    (hnd : (inputs.map Prod.fst).Nodup) :
    (∀ y recs, ((y, recs) ∈ (processAllYears inputs).1 ↔
      ∃ p, (y, p) ∈ inputs ∧ tryExtractYear p = some recs)) ∧
    ((processAllYears inputs).1.map Prod.fst).Nodup ∧
    (∀ y p, (y, p) ∈ inputs →
      (∀ recs, tryExtractYear p = some recs →
        (y, recs) ∈ (processAllYears inputs).1 ∧
          YearLog.ok y ∈ (processAllYears inputs).2) ∧
      (tryExtractYear p = none →
        YearLog.failed y ∈ (processAllYears inputs).2 ∧
          ∀ recs, (y, recs) ∉ (processAllYears inputs).1)) := by
  refine ⟨fun y recs => mem_processAllYears_fst, ?_, ?_⟩
  · rw [processAllYears_fst_eq]
    exact hnd.sublist (List.Sublist.map Prod.fst (List.filter_sublist inputs))
  · intro y p hmem
    constructor
    · intro recs hex
      refine ⟨mem_processAllYears_fst.mpr ⟨p, hmem, hex⟩, ?_⟩
      exact List.mem_map.mpr ⟨(y, p), hmem, by simp [hex]⟩
    · intro hfail
      refine ⟨List.mem_map.mpr ⟨(y, p), hmem, by simp [hfail]⟩, ?_⟩
      intro recs hout
      obtain ⟨p', hmem', hex'⟩ := mem_processAllYears_fst.mp hout
      have : p = p' := snd_unique_of_nodup_fst hnd hmem hmem'
      rw [← this] at hex'
      rw [hfail] at hex'
      cases hex'

/-- Closed witness for `processAllYears_best_effort` on `sampleYearInputs`. -/
theorem processAllYears_best_effort_witness :
    (sampleYearInputs.map Prod.fst).Nodup ∧
      (2019, [sampleCeiRecord]) ∈ (processAllYears sampleYearInputs).1 ∧
      YearLog.ok 2019 ∈ (processAllYears sampleYearInputs).2 ∧
      YearLog.failed 2021 ∈ (processAllYears sampleYearInputs).2 ∧
      ∀ recs, (2021, recs) ∉ (processAllYears sampleYearInputs).1 :=
  have hnd : (sampleYearInputs.map Prod.fst).Nodup := by decide
  have happ := processAllYears_best_effort sampleYearInputs hnd
  have hok := (happ.2.2 2019 (some samplePdfDoc) (by decide)).1
    [sampleCeiRecord] (by decide)
  have hfail := (happ.2.2 2021 none (by decide)).2 rfl
  ⟨hnd, hok.1, hok.2, hfail.1, hfail.2⟩

/-- Claim C9 counterexample: two documents of the same year (2016) are parsed
with different strategies - the appendix-format one with the clean
company-list strategy, the other with the modern strategy - so the strategy
choice is not determined by the document's year alone. -/
theorem chooseStrategy_not_year_determined :
    appendixDoc2016.year = modernDoc2016.year ∧
      chooseStrategy appendixDoc2016 ≠ chooseStrategy modernDoc2016 := by
  constructor
  · rfl
  · decide

/-- Claim C9 (amended, spec-modelled): for every processed document exactly
one of the four strategies applies, determined by the document's year
together with whether it is in the clean company-list (appendix) format:
clean company-list for appendix documents, and otherwise modern for 2015+,
mid-era for 2010-2014, legacy for pre-2010. -/
theorem chooseStrategy_by_era (d : PdfDoc) :
    (chooseStrategy d = .cleanCompanyList ↔ d.isAppendix = true) ∧
    (chooseStrategy d = .modern ↔ d.isAppendix = false ∧ 2015 ≤ d.year) ∧
    (chooseStrategy d = .midEra ↔
      d.isAppendix = false ∧ 2010 ≤ d.year ∧ d.year < 2015) ∧
    (chooseStrategy d = .legacy ↔ d.isAppendix = false ∧ d.year < 2010) := by
  obtain ⟨y, app, pages⟩ := d
  cases app <;> simp only [chooseStrategy] <;> split_ifs <;> simp_all
  all_goals omega
